import Mathlib

/-!
Verification of the notiflyme-bot repository against its specification.

Python strings are modelled as `List Char`, timestamps as integers
(seconds since the epoch), MongoDB documents as Lean structures and a
collection as a `List` of documents (`_id` modelled by list position).
Fallible Python functions are modelled with `Except`, a function that
swallows all exceptions is modelled as a total function.
-/

set_option autoImplicit false

/-! ## Validation utilities (src/utils/validation.py) -/

/-- `ValidationError` carries the user-facing message. -/
structure ValidationError where
  msg : String
  deriving DecidableEq, Repr

/-- Python whitespace characters stripped by `str.strip()` (ASCII range). -/
def pyIsSpace (c : Char) : Bool :=
  c = ' ' || c = '\t' || c = '\n' || c = '\x0d' || c = '\x0b' || c = '\x0c'

/-- Control characters removed by `sanitize_text`:
`[\x00-\x08\x0B\x0C\x0E-\x1F\x7F]` (newline, tab, carriage return kept). -/
def isStrippedControl (c : Char) : Bool :=
  (c.toNat ≤ 0x08) || c.toNat = 0x0B || c.toNat = 0x0C ||
  (0x0E ≤ c.toNat && c.toNat ≤ 0x1F) || c.toNat = 0x7F

/-- Python `str.strip()`: drop leading and trailing whitespace. -/
def pyStrip (l : List Char) : List Char :=
  ((l.dropWhile pyIsSpace).reverse.dropWhile pyIsSpace).reverse

/-- `sanitize_text`: strip surrounding whitespace, then remove the control
characters of `isStrippedControl` (empty input maps to empty). -/
def sanitize_text (l : List Char) : List Char :=
  (pyStrip l).filter (fun c => !isStrippedControl c)

def MAX_REMINDER_LENGTH : Nat := 1000
def MIN_REMINDER_LENGTH : Nat := 1
def MAX_DATE_INPUT_LENGTH : Nat := 200

/-- `p` is a prefix of `l` (executable). -/
def isPre : List Char → List Char → Bool
  | [], _ => true
  | _ :: _, [] => false
  | a :: as, b :: bs => a = b && isPre as bs

/-- `pat` occurs as a contiguous substring of `l` (executable). -/
def containsPat (pat : List Char) : List Char → Bool
  | [] => pat.isEmpty
  | c :: t => isPre pat (c :: t) || containsPat pat t

/-- `\w` of the regex module: letters, digits, underscore (ASCII model). -/
def isWordChar (c : Char) : Bool :=
  c.isAlpha || c.isDigit || c = '_'

/-- Consume `\s*` then require `=`. -/
def spaceTail : List Char → Bool
  | [] => false
  | c :: t => if c = '=' then true else if pyIsSpace c then spaceTail t else false

/-- After `on\w+`: consume further word characters, then `\s*`, then `=`. -/
def wordTail : List Char → Bool
  | [] => false
  | c :: t =>
    if isWordChar c then wordTail t
    else if c = '=' then true
    else if pyIsSpace c then spaceTail t
    else false

/-- `\w+\s*=`: at least one word character, then `\s*`, then `=`. -/
def wordThenEq : List Char → Bool
  | [] => false
  | c :: t => isWordChar c && wordTail t

/-- `n` then `\w+\s*=` (the part of `on\w+\s*=` after the leading `o`). -/
def matchNTail : List Char → Bool
  | 'n' :: r => wordThenEq r
  | _ => false

/-- Search for the attribute-injection pattern `on\w+\s*=` anywhere in `l`
(`l` is expected already lower-cased). -/
def suspOnAttr : List Char → Bool
  | [] => false
  | c :: t => (c = 'o' && matchNTail t) || suspOnAttr t

/-- The `SUSPICIOUS_PATTERNS` check: case-insensitive search for `<script`,
`javascript:`, `data:`, `vbscript:` or `on\w+\s*=`. -/
def hasSuspicious (l : List Char) : Bool :=
  let low := l.map Char.toLower
  containsPat "<script".toList low ||
  containsPat "javascript:".toList low ||
  containsPat "data:".toList low ||
  containsPat "vbscript:".toList low ||
  suspOnAttr low

/-- `validate_reminder_text` (src/utils/validation.py lines 54-89). -/
def validate_reminder_text (text : List Char) : Except ValidationError (List Char) :=
  if text.isEmpty then .error ⟨"Reminder text is required"⟩
  else
    let t := sanitize_text text
    if t.length < MIN_REMINDER_LENGTH then .error ⟨"Reminder text cannot be empty"⟩
    else if t.length > MAX_REMINDER_LENGTH then .error ⟨"Reminder text too long (max 1000 characters)"⟩
    else if hasSuspicious t then .error ⟨"Reminder text contains invalid content"⟩
    else .ok t

/-- The regex `^[a-zA-Z0-9_]{1,32}$` on text that cannot end in a newline
(`sanitize_text` output never does): every character a word character,
length between 1 and 32. -/
def usernameMatch (l : List Char) : Bool :=
  1 ≤ l.length && l.length ≤ 32 && l.all isWordChar

/-- `validate_username` (src/utils/validation.py lines 165-195): `None` input
returns `None`; otherwise sanitize, return `None` when the sanitized form is
empty, else require the username regex or fail. -/
def validate_username : Option (List Char) → Except ValidationError (Option (List Char))
  | none => .ok none
  | some u =>
    let s := sanitize_text u
    if s.isEmpty then .ok none
    else if usernameMatch s then .ok (some s)
    else .error ⟨"Invalid username format"⟩

/-- Modelled from the spec: `sanitize_for_llm` is imported by both date
parsers from `utils.validation` but no definition of it exists under `src/`
(only its callers do). The spec describes it as the §4.4 sanitization pass
applied before user text is embedded in a prompt, with an empty result
treated as nothing to parse; it is modelled as that sanitization pass. -/
def sanitize_for_llm (l : List Char) : List Char :=
  sanitize_text l

/-! ## Time conversion (src/utils/time_converter.py) -/

/-- An IANA timezone, abstracted by its fixed UTC offset in seconds
(the tz-database lookup `ZoneInfo(name)` is modelled by this offset). -/
structure Zone where
  offset : Int
  deriving DecidableEq, Repr

def utcZone : Zone := ⟨0⟩

/-- `ZoneInfo("Asia/Singapore")`: UTC+8. -/
def sgtZone : Zone := ⟨8 * 3600⟩

/-- A timezone-aware `datetime`: wall-clock seconds since the epoch as read
in its attached zone. -/
structure AwareDT where
  wall : Int
  zone : Zone
  deriving DecidableEq, Repr

/-- The absolute instant a timezone-aware `datetime` denotes. -/
def instant (t : AwareDT) : Int := t.wall - t.zone.offset

/-- Python `datetime.astimezone(z)` on an aware datetime: reinterpret the
same instant in zone `z`. -/
def astimezone (t : AwareDT) (z : Zone) : AwareDT :=
  ⟨instant t + z.offset, z⟩

/-- `sgt_to_utc` (src/utils/time_converter.py lines 12-22). -/
def sgt_to_utc (t : AwareDT) : AwareDT := astimezone t utcZone

/-- `utc_to_sgt` (src/utils/time_converter.py lines 25-35). -/
def utc_to_sgt (t : AwareDT) : AwareDT := astimezone t sgtZone

/-! ## Natural-language date parsers
(src/utils/gemini_dateparser.py, src/utils/groq_dateparser.py) -/

/-- `DateParsingError` carries its message. -/
structure DateParsingError where
  msg : String
  deriving DecidableEq, Repr

/-- A Python `datetime` that may or may not carry timezone information. -/
inductive PyDateTime where
  | naive (wall : Int)
  | aware (wall : Int) (off : Int)
  deriving DecidableEq, Repr

/-- The tz-fixup after parsing: `replace(tzinfo=zone)` on a naive value
(reinterpret the wall time in `zone`), `astimezone(zone)` on an aware one
(convert the instant to `zone`). -/
def attachZone (z : Int) : PyDateTime → PyDateTime
  | .naive w => .aware w z
  | .aware w o => .aware (w - o + z) z

/-- The structured record the Gemini backend returns
(`sgt_datetime`, `valid`; `original_input` is never read). -/
structure GeminiParsed where
  sgt_datetime : Option PyDateTime
  valid : Bool
  deriving DecidableEq, Repr

/-- Outcome of the Gemini backend interaction inside `_sync_gemini_call`:
client construction raises, the generate-content request raises, or a
response arrives whose `.parsed` field is `resp` (possibly `None`). -/
inductive GeminiBackend where
  | initRaise
  | callRaise
  | resp (parsed : Option GeminiParsed)
  deriving DecidableEq, Repr

/-- The body of `_sync_gemini_call` up to (not including) its outermost
`except Exception` handler: client-init failure and request failure raise
`DateParsingError`; an absent, invalid or timestamp-less structured result
yields `None`; otherwise the timestamp is tz-fixed to the user zone. -/
def syncGeminiCallInner (userOff : Int) (b : GeminiBackend) :
    Except DateParsingError (Option PyDateTime) :=
  match b with
  | .initRaise => .error ⟨"Failed to initialize AI client"⟩
  | .callRaise => .error ⟨"AI parsing service unavailable"⟩
  | .resp none => .ok none
  | .resp (some p) =>
    if !p.valid then .ok none
    else
      match p.sgt_datetime with
      | none => .ok none
      | some dt => .ok (some (attachZone userOff dt))

/-- `_sync_gemini_call` (src/utils/gemini_dateparser.py lines 61-137): the
whole body runs inside `try: ... except Exception: return None`, and
`DateParsingError` derives from `Exception`, so every raise inside the body
is swallowed into `None`. -/
def syncGeminiCall (userOff : Int) (b : GeminiBackend) :
    Except DateParsingError (Option PyDateTime) :=
  match syncGeminiCallInner userOff b with
  | .error _ => .ok none
  | .ok v => .ok v

/-- The structured record the Groq backend yields. `sgt_datetime = none`
models a null/empty field; `some none` a non-null string that
`datetime.fromisoformat` fails to parse; `some (some d)` a string parsing
to `d`. -/
structure GroqParsed where
  sgt_datetime : Option (Option PyDateTime)
  valid : Bool
  deriving DecidableEq, Repr

/-- Outcome of the Groq backend interaction inside `_sync_groq_call`:
client construction raises, the chat-completion request (or schema
validation of its content) raises, or a validated structured record. -/
inductive GroqBackend where
  | initRaise
  | callRaise
  | resp (parsed : GroqParsed)
  deriving DecidableEq, Repr

/-- `_sync_groq_call` (src/utils/groq_dateparser.py lines 67-148): its
outermost handlers are `except DateParsingError: raise` then
`except Exception: return None`, so the `DateParsingError` raised on
client-init or request failure propagates to the caller; an invalid or
timestamp-less structured result yields `None`, as does a timestamp string
`fromisoformat` cannot parse; otherwise the timestamp is tz-fixed to
Asia/Singapore (the Groq integration hardcodes that zone). -/
def syncGroqCall (b : GroqBackend) : Except DateParsingError (Option PyDateTime) :=
  match b with
  | .initRaise => .error ⟨"Failed to initialize AI client"⟩
  | .callRaise => .error ⟨"AI parsing service error"⟩
  | .resp p =>
    if !p.valid then .ok none
    else
      match p.sgt_datetime with
      | none => .ok none
      | some none => .ok none
      | some (some dt) => .ok (some (attachZone sgtZone.offset dt))

/-- `gemini_dateparser` (src/utils/gemini_dateparser.py lines 25-58).
`backend` maps the sanitized text embedded in the prompt to the backend
outcome; the second component of the result records whether the backend
was invoked at all. The wrapper's own handlers re-raise `DateParsingError`
unchanged and never see another exception, so the sync result passes
through. -/
def gemini_dateparser (userOff : Int) (user_input : List Char)
    (backend : List Char → GeminiBackend) :
    Except DateParsingError (Option PyDateTime) × Bool :=
  if user_input.isEmpty || (pyStrip user_input).isEmpty then (.ok none, false)
  else
    let safe := sanitize_for_llm user_input
    if safe.isEmpty then (.ok none, false)
    else (syncGeminiCall userOff (backend safe), true)

/-- `groq_dateparser` (src/utils/groq_dateparser.py lines 32-64), analogous
to `gemini_dateparser`. -/
def groq_dateparser (user_input : List Char)
    (backend : List Char → GroqBackend) :
    Except DateParsingError (Option PyDateTime) × Bool :=
  if user_input.isEmpty || (pyStrip user_input).isEmpty then (.ok none, false)
  else
    let safe := sanitize_for_llm user_input
    if safe.isEmpty then (.ok none, false)
    else (syncGroqCall (backend safe), true)

/-! ## Authorization guard (src/utils/auth.py, src/config.py,
src/handlers/start_handler.py) -/

/-- Modelled from the spec: `utils/auth.py` imports `AUTHORIZED_USER_ID`
from `config`, but `src/config.py` does not define it; the spec lists the
"authorized-user identity (for restricted commands)" among the
configuration loaded at startup, so it is modelled as a field of the
startup configuration. -/
structure Config where
  AUTHORIZED_USER_ID : Int
  deriving DecidableEq, Repr

/-- The fixed rejection message of the `restricted` decorator. -/
def rejectionMessage : String := "You are not authorised to use this bot."

/-- What an invocation of a wrapped handler produced: the reply sent,
whether the wrapped handler body ran, and whether a WARNING was logged. -/
structure GuardedCall where
  reply : String
  wrappedRan : Bool
  warned : Bool
  deriving DecidableEq, Repr

/-- `restricted` (src/utils/auth.py lines 13-23): compare the caller's
identity with the configured one; on mismatch log a WARNING and reply with
the fixed rejection without running the wrapped handler, otherwise delegate
to the wrapped handler. -/
def restricted (cfg : Config) (handler : Int → String) (callerId : Int) : GuardedCall :=
  if callerId ≠ cfg.AUTHORIZED_USER_ID then ⟨rejectionMessage, false, true⟩
  else ⟨handler callerId, true, false⟩

/-- The `/start` handler body (src/handlers/start_handler.py lines 16-29):
a fixed welcome reply. -/
def start (_callerId : Int) : String :=
  "Hello! Use /setreminder to set a reminder or /help see more what I can do!"

/-- `start_handler`: the `/start` body wrapped by `restricted`
(the `@restricted` decoration at src/handlers/start_handler.py line 15). -/
def start_handler (cfg : Config) (callerId : Int) : GuardedCall :=
  restricted cfg start callerId

/-! ## Database access layer (src/utils/db.py) -/

/-- The user-preference document as read back (`timezone` field may be
absent). -/
structure UserDoc where
  timezone : Option String
  deriving DecidableEq, Repr

/-- Outcome of the `find_one` read inside `get_user_timezone`: the read
raised, no document matched, or a document was found. -/
inductive UserRead where
  | raised
  | missing
  | found (doc : UserDoc)
  deriving DecidableEq, Repr

/-- `get_user_timezone` (src/utils/db.py lines 104-122): return the stored
`timezone` field when a document with one exists; otherwise — no document,
no field, or any exception during the read (which the `try` swallows after
logging) — return the default "Asia/Singapore". Total: never raises. -/
def get_user_timezone (read : UserRead) : String :=
  match read with
  | .raised => "Asia/Singapore"
  | .missing => "Asia/Singapore"
  | .found doc =>
    match doc.timezone with
    | some tz => tz
    | none => "Asia/Singapore"

/-! ## Background dispatch worker (src/reminder_tasks.py,
src/celery_worker.py) -/

/-- A reminder document. `processing` is `Option Bool` so that an absent
field (`none`) is distinguished from an explicit `false`. -/
structure Reminder where
  user_id : Int
  reminder : String
  reminder_date : Int
  sent : Bool
  processing : Option Bool
  deriving DecidableEq, Repr

/-- The claim filter of `find_one_and_update` (src/reminder_tasks.py lines
66-70): `reminder_date <= now`, `sent == False`, `processing $ne True`
(absent or non-true both match). -/
def eligible (now : Int) (r : Reminder) : Bool :=
  decide (r.reminder_date ≤ now) && !r.sent && !(r.processing = some true)

/-- The atomic `find_one_and_update` claim step (src/reminder_tasks.py
lines 65-75): find the first document matching `eligible`, set
`processing := true` on it in the same step, and return its position, the
post-update document (`return_document=True`) and the updated collection;
`none` when no document matches. -/
def claimOne (now : Int) : List Reminder → Option (Nat × Reminder × List Reminder)
  | [] => none
  | r :: t =>
    if eligible now r then
      let r' := { r with processing := some true }
      some (0, r', r' :: t)
    else
      match claimOne now t with
      | none => none
      | some (i, c, t') => some (i + 1, c, r :: t')

/-- How the delivery attempt for a claimed reminder ends: the Telegram send
returned `True`, it returned `False` (transport-level failure, caught inside
`_send_telegram_message`), or an unexpected exception escaped while
processing the claimed document. -/
inductive SendOutcome where
  | success
  | failure
  | error
  deriving DecidableEq, Repr

/-- The resolve step after a delivery attempt (src/reminder_tasks.py lines
90-113): on success set `sent = True, processing = False`; on failure set
only `processing = False`; on an unexpected error set `processing = False`. -/
def processClaimed (o : SendOutcome) (r : Reminder) : Reminder :=
  match o with
  | .success => { r with sent := true, processing := some false }
  | .failure => { r with processing := some false }
  | .error => { r with processing := some false }

/-- Apply `f` to the document at position `i` (the `update_one` by `_id`,
with `_id` modelled by list position). -/
def updateAt (i : Nat) (f : Reminder → Reminder) : List Reminder → List Reminder
  | [] => []
  | r :: t =>
    match i with
    | 0 => f r :: t
    | j + 1 => r :: updateAt j f t

/-- One polling pass of `send_due_reminders` (src/reminder_tasks.py lines
48-117): `now` is captured once (line 59) before the `while True` loop and
every claim compares against it; each iteration claims one document and
resolves it with that iteration's send outcome. `fuel` bounds the number of
loop iterations (the Python loop has no such bound); the result carries the
final collection and the list of positions claimed, in order. -/
def runPass (now : Int) (outcome : Nat → SendOutcome) :
    Nat → List Reminder → List Reminder × List Nat
  | 0, db => (db, [])
  | fuel + 1, db =>
    match claimOne now db with
    | none => (db, [])
    | some (i, _c, db') =>
      let db'' := updateAt i (processClaimed (outcome fuel)) db'
      let rest := runPass now outcome fuel db''
      (rest.1, i :: rest.2)

/-- `cleanup_stale_processing_locks` (src/celery_worker.py lines 26-43):
`update_many({"processing": True}, {"$set": {"processing": False}})` —
every document whose `processing` field equals `true` gets it set to
`false`; all other documents (and every `sent` value) are untouched. -/
def cleanup_stale_processing_locks (db : List Reminder) : List Reminder :=
  db.map (fun r => if r.processing = some true then { r with processing := some false } else r)

/-! ## Theorems -/

/-- C7: converting reference-zone→UTC→reference-zone is the identity, and
likewise UTC→reference-zone→UTC, given the same zone on both ends; both
conversions preserve the denoted instant (pure reinterpretation of an
already timezone-aware timestamp, not a naive offset shift). -/
theorem c7_timezone_roundtrip :
    ∀ t : AwareDT,
      instant (sgt_to_utc t) = instant t ∧
      instant (utc_to_sgt t) = instant t ∧
      (t.zone = sgtZone → utc_to_sgt (sgt_to_utc t) = t) ∧
      (t.zone = utcZone → sgt_to_utc (utc_to_sgt t) = t) := by
  rintro ⟨w, z⟩
  refine ⟨by simp [sgt_to_utc, astimezone, instant, utcZone],
          by simp [utc_to_sgt, astimezone, instant, sgtZone],
          ?_, ?_⟩ <;>
    · rintro rfl
      simp [sgt_to_utc, utc_to_sgt, astimezone, instant, utcZone, sgtZone]

theorem c7_timezone_roundtrip_witness :
    utc_to_sgt (sgt_to_utc ⟨28800, sgtZone⟩) = ⟨28800, sgtZone⟩ ∧
    sgt_to_utc (utc_to_sgt ⟨3600, utcZone⟩) = ⟨3600, utcZone⟩ :=
  ⟨(c7_timezone_roundtrip ⟨28800, sgtZone⟩).2.2.1 rfl,
   (c7_timezone_roundtrip ⟨3600, utcZone⟩).2.2.2 rfl⟩

/-- C9: `get_user_timezone` returns the stored timezone when a document
with a `timezone` field exists, and the default "Asia/Singapore" when no
preference is stored (no document, or a document without the field) and
when the underlying read fails; it is a total function (never raises). -/
theorem c9_get_user_timezone :
    ∀ read : UserRead,
      (∀ doc tz, read = .found doc → doc.timezone = some tz →
        get_user_timezone read = tz) ∧
      (read = .missing → get_user_timezone read = "Asia/Singapore") ∧
      (read = .raised → get_user_timezone read = "Asia/Singapore") ∧
      (∀ doc, read = .found doc → doc.timezone = none →
        get_user_timezone read = "Asia/Singapore") := by
  intro read
  refine ⟨?_, ?_, ?_, ?_⟩
  · rintro doc tz rfl h
    simp [get_user_timezone, h]
  · rintro rfl; rfl
  · rintro rfl; rfl
  · rintro doc rfl h
    simp [get_user_timezone, h]

theorem c9_get_user_timezone_witness :
    get_user_timezone (.found ⟨some "Europe/Paris"⟩) = "Europe/Paris" ∧
    get_user_timezone .missing = "Asia/Singapore" ∧
    get_user_timezone .raised = "Asia/Singapore" ∧
    get_user_timezone (.found ⟨none⟩) = "Asia/Singapore" :=
  ⟨(c9_get_user_timezone _).1 ⟨some "Europe/Paris"⟩ _ rfl rfl,
   (c9_get_user_timezone _).2.1 rfl,
   (c9_get_user_timezone _).2.2.1 rfl,
   (c9_get_user_timezone _).2.2.2 ⟨none⟩ rfl rfl⟩

/-- C4: the authorization guard runs the wrapped handler exactly for the
caller whose identity equals the configured authorized-user identity; every
other caller gets the fixed rejection message, the wrapped handler does not
run, and the attempt is logged at WARNING; the `/start` handler is the
guard applied to the start body; the authorized identity is a field of the
startup configuration (modelled from the spec, see `Config`). -/
theorem c4_restricted_guard :
    ∀ (cfg : Config) (handler : Int → String) (caller : Int),
      (caller = cfg.AUTHORIZED_USER_ID →
        restricted cfg handler caller = ⟨handler caller, true, false⟩) ∧
      (caller ≠ cfg.AUTHORIZED_USER_ID →
        restricted cfg handler caller = ⟨rejectionMessage, false, true⟩) ∧
      start_handler cfg caller = restricted cfg start caller := by
  intro cfg handler caller
  refine ⟨fun h => ?_, fun h => ?_, rfl⟩ <;> simp [restricted, h]

theorem c4_restricted_guard_witness :
    restricted ⟨42⟩ start 42 = ⟨start 42, true, false⟩ ∧
    restricted ⟨42⟩ start 7 = ⟨rejectionMessage, false, true⟩ :=
  ⟨(c4_restricted_guard ⟨42⟩ start 42).1 rfl,
   (c4_restricted_guard ⟨42⟩ start 7).2.1 (by decide)⟩

/-- C3: evaluation of both date-parser backends at the failing inputs. The
Gemini sync call swallows the `DateParsingError` it raises for client-init
and request failures (its trailing blanket `except Exception` catches it)
and returns `None`, while the Groq sync call re-raises it as the claim
states; both return the unparseable outcome `None` when the structured
result is absent, marked invalid, or carries no timestamp. -/
theorem c3_backend_failure_evaluation :
    syncGeminiCall 28800 .initRaise = .ok none ∧
    syncGeminiCall 28800 .callRaise = .ok none ∧
    syncGeminiCallInner 28800 .initRaise = .error ⟨"Failed to initialize AI client"⟩ ∧
    syncGeminiCallInner 28800 .callRaise = .error ⟨"AI parsing service unavailable"⟩ ∧
    syncGroqCall .initRaise = .error ⟨"Failed to initialize AI client"⟩ ∧
    syncGroqCall .callRaise = .error ⟨"AI parsing service error"⟩ ∧
    syncGeminiCall 28800 (.resp none) = .ok none ∧
    syncGeminiCall 28800 (.resp (some ⟨some (.naive 0), false⟩)) = .ok none ∧
    syncGeminiCall 28800 (.resp (some ⟨none, true⟩)) = .ok none ∧
    syncGroqCall (.resp ⟨none, true⟩) = .ok none ∧
    syncGroqCall (.resp ⟨some (some (.naive 0)), false⟩) = .ok none := by
  refine ⟨rfl, rfl, rfl, rfl, rfl, rfl, rfl, rfl, rfl, rfl, rfl⟩

/-- C5: the sanitization pass is applied to user text before it reaches the
backend — whenever the backend is invoked, it is invoked on exactly
`sanitize_for_llm` of the user input — and every input whose sanitized
result is empty yields the unparseable outcome `None` without invoking the
backend at all (`sanitize_for_llm` is modelled from the spec, see its
definition). -/
theorem c5_sanitize_before_backend :
    ∀ (off : Int) (input : List Char)
      (gb : List Char → GeminiBackend) (qb : List Char → GroqBackend),
      (sanitize_for_llm input = [] →
        gemini_dateparser off input gb = (.ok none, false) ∧
        groq_dateparser input qb = (.ok none, false)) ∧
      ((gemini_dateparser off input gb).2 = true →
        gemini_dateparser off input gb =
          (syncGeminiCall off (gb (sanitize_for_llm input)), true)) ∧
      ((groq_dateparser input qb).2 = true →
        groq_dateparser input qb =
          (syncGroqCall (qb (sanitize_for_llm input)), true)) := by
  intro off input gb qb
  refine ⟨fun h => ⟨?_, ?_⟩, fun h => ?_, fun h => ?_⟩
  · simp [gemini_dateparser, h]
  · simp [groq_dateparser, h]
  · by_cases h1 : (input.isEmpty || (pyStrip input).isEmpty) = true
    · simp [gemini_dateparser, h1] at h
    · by_cases h2 : (sanitize_for_llm input).isEmpty = true
      · simp [gemini_dateparser, h1, h2] at h
      · simp [gemini_dateparser, h1, h2]
  · by_cases h1 : (input.isEmpty || (pyStrip input).isEmpty) = true
    · simp [groq_dateparser, h1] at h
    · by_cases h2 : (sanitize_for_llm input).isEmpty = true
      · simp [groq_dateparser, h1, h2] at h
      · simp [groq_dateparser, h1, h2]

theorem c5_sanitize_before_backend_witness :
    (sanitize_for_llm [' '] = [] ∧
      gemini_dateparser 28800 [' '] (fun _ => GeminiBackend.initRaise) = (.ok none, false) ∧
      groq_dateparser [' '] (fun _ => GroqBackend.initRaise) = (.ok none, false)) ∧
    gemini_dateparser 28800 "now".toList (fun _ => GeminiBackend.resp none) =
      (syncGeminiCall 28800 (GeminiBackend.resp none), true) :=
  ⟨⟨by decide,
    (c5_sanitize_before_backend 28800 [' '] (fun _ => GeminiBackend.initRaise)
      (fun _ => GroqBackend.initRaise)).1 (by decide) |>.1,
    (c5_sanitize_before_backend 28800 [' '] (fun _ => GeminiBackend.initRaise)
      (fun _ => GroqBackend.initRaise)).1 (by decide) |>.2⟩,
   (c5_sanitize_before_backend 28800 "now".toList (fun _ => GeminiBackend.resp none)
      (fun _ => GroqBackend.initRaise)).2.1 (by decide)⟩

/-- C6: the claim is false at the input `" "`: a present string that
sanitizes to the empty string makes `validate_username` return absent
(`None`), not fail with `ValidationError`. -/
theorem c6_validate_username_counterexample :
    validate_username (some [' ']) = .ok none := rfl

/-- C6 (amended): an absent input returns absent; a present string whose
sanitized form is empty also returns absent (not an error); any other
present string is returned in sanitized form when the sanitized form
matches `^[A-Za-z0-9_]{1,32}$` and otherwise fails with `ValidationError`
— in particular "john_doe99" is accepted while "john doe!" and a
33-character name fail. -/
theorem c6_validate_username_amended :
    ∀ u : List Char,
      validate_username none = .ok none ∧
      (sanitize_text u = [] → validate_username (some u) = .ok none) ∧
      (usernameMatch (sanitize_text u) = true →
        validate_username (some u) = .ok (some (sanitize_text u))) ∧
      (sanitize_text u ≠ [] → usernameMatch (sanitize_text u) = false →
        validate_username (some u) = .error ⟨"Invalid username format"⟩) ∧
      validate_username (some "john_doe99".toList) = .ok (some "john_doe99".toList) ∧
      (validate_username (some "john doe!".toList)).isOk = false ∧
      (validate_username (some (List.replicate 33 'a'))).isOk = false := by
  intro u
  refine ⟨rfl, fun h => ?_, fun h => ?_, fun h1 h2 => ?_, rfl, by decide, by decide⟩
  · simp [validate_username, h]
  · have hne : (sanitize_text u).isEmpty = false := by
      cases e : sanitize_text u with
      | nil => rw [e] at h; simp [usernameMatch] at h
      | cons a t => simp
    simp [validate_username, hne, h]
  · have hne : (sanitize_text u).isEmpty = false := by
      cases e : sanitize_text u with
      | nil => exact absurd e h1
      | cons a t => simp
    simp [validate_username, hne, h2]

theorem c6_validate_username_witness :
    validate_username (some ['\x09']) = .ok none ∧
    validate_username (some ['a', 'b']) = .ok (some ['a', 'b']) ∧
    validate_username (some ['!']) = .error ⟨"Invalid username format"⟩ :=
  ⟨(c6_validate_username_amended ['\x09']).2.1 (by decide),
   (c6_validate_username_amended ['a', 'b']).2.2.1 (by decide),
   (c6_validate_username_amended ['!']).2.2.2.1 (by decide) (by decide)⟩

/-- `updateAt` at the updated position. -/
theorem updateAt_same (f : Reminder → Reminder) :
    ∀ (db : List Reminder) (i : Nat), (updateAt i f db)[i]? = (db[i]?).map f := by
  intro db
  induction db with
  | nil => intro i; simp [updateAt]
  | cons r t ih =>
    intro i
    cases i with
    | zero => simp [updateAt]
    | succ j => simpa [updateAt] using ih j

/-- `updateAt` leaves every other position unchanged. -/
theorem updateAt_other (f : Reminder → Reminder) :
    ∀ (db : List Reminder) (i j : Nat), j ≠ i → (updateAt i f db)[j]? = db[j]? := by
  intro db
  induction db with
  | nil => intro i j _; simp [updateAt]
  | cons r t ih =>
    intro i j hne
    cases i with
    | zero =>
      cases j with
      | zero => exact absurd rfl hne
      | succ k => simp [updateAt]
    | succ m =>
      cases j with
      | zero => simp [updateAt]
      | succ k =>
        have : k ≠ m := fun h => hne (by rw [h])
        simpa [updateAt] using ih m k this

/-- Unfolding of the claim filter. -/
theorem eligible_spec (now : Int) (r : Reminder) :
    eligible now r = true ↔
      r.reminder_date ≤ now ∧ r.sent = false ∧ r.processing ≠ some true := by
  simp [eligible, and_assoc]

/-- Soundness of the atomic claim step: a returned document sits at the
returned position, matched the filter before the update, and is returned
with `processing := true` set in that same step, the collection updated
accordingly. -/
theorem claimOne_sound :
    ∀ (now : Int) (db : List Reminder) (i : Nat) (c : Reminder) (db' : List Reminder),
      claimOne now db = some (i, c, db') →
      ∃ r, db[i]? = some r ∧ eligible now r = true ∧
        c = { r with processing := some true } ∧
        db' = updateAt i (fun x => { x with processing := some true }) db := by
  intro now db
  induction db with
  | nil => intro i c db' h; simp [claimOne] at h
  | cons r t ih =>
    intro i c db' h
    by_cases he : eligible now r = true
    · rw [claimOne, if_pos he] at h
      simp only [Option.some.injEq, Prod.mk.injEq] at h
      obtain ⟨rfl, rfl, rfl⟩ := h
      exact ⟨r, by simp, he, rfl, by simp [updateAt]⟩
    · rw [claimOne, if_neg he] at h
      cases hrec : claimOne now t with
      | none => rw [hrec] at h; exact absurd h (by simp)
      | some v =>
        obtain ⟨j, c', t'⟩ := v
        rw [hrec] at h
        simp only [Option.some.injEq, Prod.mk.injEq] at h
        obtain ⟨rfl, rfl, rfl⟩ := h
        obtain ⟨r₀, hg, helig, hc, ht⟩ := ih j c' t' hrec
        exact ⟨r₀, by simpa using hg, helig, hc, by simp [updateAt, ht]⟩

/-- The claim step returns nothing exactly when no document matches the
filter. -/
theorem claimOne_none_iff :
    ∀ (now : Int) (db : List Reminder),
      claimOne now db = none ↔
        ∀ (i : Nat) (r : Reminder), db[i]? = some r → eligible now r = false := by
  intro now db
  induction db with
  | nil => simp [claimOne]
  | cons r t ih =>
    constructor
    · intro h i s hg
      by_cases he : eligible now r = true
      · rw [claimOne, if_pos he] at h; exact absurd h (by simp)
      · rw [claimOne, if_neg he] at h
        cases i with
        | zero =>
          simp at hg
          subst hg
          exact Bool.eq_false_iff.mpr he
        | succ j =>
          simp at hg
          cases hrec : claimOne now t with
          | none => exact (ih.mp hrec) j s hg
          | some v =>
            obtain ⟨a, b, c⟩ := v
            rw [hrec] at h
            exact absurd h (by simp)
    · intro h
      have he : eligible now r = false := h 0 r (by simp)
      rw [claimOne, if_neg (by simp [he])]
      have : claimOne now t = none := ih.mpr (fun j s hg => h (j + 1) s (by simpa using hg))
      rw [this]

/-- C1: for every reminder claimed by a dispatch pass, after the delivery
attempt resolves, a successful send leaves `sent = true, processing = false`,
a transport-level failure leaves `sent = false, processing = false`, and an
unexpected processing error resets `processing = false`; `sent` never
reverts from `true` (the resolve step keeps it, and a `sent` document is
never eligible for a claim again, so it flips `false`→`true` at most once);
and the worker-startup hook resets `processing` on every document where it
is `true`, regardless of `sent`. -/
theorem c1_delivery_invariants :
    (∀ (now : Int) (db : List Reminder) (i : Nat) (c : Reminder)
       (db' : List Reminder) (o : SendOutcome),
      claimOne now db = some (i, c, db') →
      ∃ r', (updateAt i (processClaimed o) db')[i]? = some r' ∧
        r'.processing = some false ∧
        (o = .success → r'.sent = true) ∧
        (o = .failure → r'.sent = false) ∧
        (o = .error → r'.sent = false)) ∧
    (∀ (r : Reminder) (o : SendOutcome), r.sent = true → (processClaimed o r).sent = true) ∧
    (∀ (now : Int) (r : Reminder), r.sent = true → eligible now r = false) ∧
    (∀ (db : List Reminder) (i : Nat) (r : Reminder),
      db[i]? = some r →
      ∃ r', (cleanup_stale_processing_locks db)[i]? = some r' ∧
        r'.processing ≠ some true ∧ r'.sent = r.sent ∧
        (r.processing = some true → r'.processing = some false) ∧
        (r.processing ≠ some true → r' = r)) := by
  refine ⟨?_, ?_, ?_, ?_⟩
  · intro now db i c db' o h
    obtain ⟨r, hg, helig, rfl, rfl⟩ := claimOne_sound now db i c db' h
    have hsent : r.sent = false := ((eligible_spec now r).mp helig).2.1
    refine ⟨processClaimed o { r with processing := some true }, ?_, ?_, ?_, ?_, ?_⟩
    · rw [updateAt_same, updateAt_same, hg]; rfl
    · cases o <;> rfl
    · rintro rfl; rfl
    · rintro rfl; simpa [processClaimed] using hsent
    · rintro rfl; simpa [processClaimed] using hsent
  · intro r o h
    cases o <;> simp [processClaimed, h]
  · intro now r h
    simp [eligible, h]
  · intro db i r hg
    refine ⟨if r.processing = some true then { r with processing := some false } else r,
            ?_, ?_, ?_, ?_, ?_⟩
    · simp [cleanup_stale_processing_locks, hg]
    · by_cases hp : r.processing = some true <;> simp [hp]
    · by_cases hp : r.processing = some true <;> simp [hp]
    · intro hp; simp [hp]
    · intro hp; simp [hp]

theorem c1_delivery_invariants_witness :
    (∃ r', (updateAt 0 (processClaimed .success)
        [⟨1, "milk", 0, false, some true⟩])[0]? = some r' ∧
      r'.processing = some false ∧
      (SendOutcome.success = .success → r'.sent = true) ∧
      (SendOutcome.success = .failure → r'.sent = false) ∧
      (SendOutcome.success = .error → r'.sent = false)) ∧
    (processClaimed .failure ⟨1, "milk", 0, true, some true⟩).sent = true ∧
    eligible 5 ⟨1, "milk", 0, true, none⟩ = false ∧
    (∃ r', (cleanup_stale_processing_locks
        [⟨1, "milk", 0, true, some true⟩])[0]? = some r' ∧
      r'.processing ≠ some true ∧ r'.sent = (⟨1, "milk", 0, true, some true⟩ : Reminder).sent ∧
      ((⟨1, "milk", 0, true, some true⟩ : Reminder).processing = some true →
        r'.processing = some false) ∧
      ((⟨1, "milk", 0, true, some true⟩ : Reminder).processing ≠ some true →
        r' = ⟨1, "milk", 0, true, some true⟩)) :=
  ⟨c1_delivery_invariants.1 5 [⟨1, "milk", 0, false, none⟩] 0
      ⟨1, "milk", 0, false, some true⟩ [⟨1, "milk", 0, false, some true⟩] .success rfl,
   c1_delivery_invariants.2.1 ⟨1, "milk", 0, true, some true⟩ .failure rfl,
   c1_delivery_invariants.2.2.1 5 ⟨1, "milk", 0, true, none⟩ rfl,
   c1_delivery_invariants.2.2.2 [⟨1, "milk", 0, true, some true⟩] 0
      ⟨1, "milk", 0, true, some true⟩ rfl⟩

/-- C2: the claim step is a single atomic find-and-update — any document it
returns matched `reminder_date ≤ now`, `sent = false`, `processing` not
`true` before the step and has `processing = true` set by that same step;
and for a collection whose only eligible document sits at position `i`, of
two racing claim attempts (interleaved atomic steps) the first returns that
document, flipping `processing` to `true`, and the second finds no eligible
candidate. -/
theorem c2_atomic_claim_race :
    (∀ (now : Int) (db : List Reminder) (i : Nat) (c : Reminder) (db' : List Reminder),
      claimOne now db = some (i, c, db') →
      ∃ r, db[i]? = some r ∧
        r.reminder_date ≤ now ∧ r.sent = false ∧ r.processing ≠ some true ∧
        c = { r with processing := some true } ∧
        db' = updateAt i (fun x => { x with processing := some true }) db) ∧
    (∀ (now : Int) (db : List Reminder) (i : Nat) (r : Reminder),
      db[i]? = some r → eligible now r = true →
      (∀ (j : Nat) (s : Reminder), j ≠ i → db[j]? = some s → eligible now s = false) →
      ∃ db', claimOne now db = some (i, { r with processing := some true }, db') ∧
        claimOne now db' = none) := by
  constructor
  · intro now db i c db' h
    obtain ⟨r, hg, helig, hc, hdb⟩ := claimOne_sound now db i c db' h
    obtain ⟨h1, h2, h3⟩ := (eligible_spec now r).mp helig
    exact ⟨r, hg, h1, h2, h3, hc, hdb⟩
  · intro now db i r hg helig huniq
    obtain ⟨v, hclaim⟩ : ∃ v, claimOne now db = some v := by
      cases hc : claimOne now db with
      | none =>
        exact absurd ((claimOne_none_iff now db).mp hc i r hg) (by simp [helig])
      | some v => exact ⟨v, rfl⟩
    obtain ⟨j, c, db'⟩ := v
    obtain ⟨s, hgs, heligs, hc2, hdb'⟩ := claimOne_sound now db j c db' hclaim
    have hji : j = i := by
      by_contra hne
      exact absurd heligs (by simp [huniq j s hne hgs])
    subst hji
    have hsr : s = r := by
      rw [hg] at hgs
      exact (Option.some.inj hgs).symm
    subst hsr
    refine ⟨db', ?_, ?_⟩
    · rw [hclaim, hc2]
    · rw [hdb']
      apply (claimOne_none_iff now _).mpr
      intro k u hku
      by_cases hk : k = j
      · subst hk
        rw [updateAt_same, hg] at hku
        simp only [Option.map_some'] at hku
        cases Option.some.inj hku
        simp [eligible]
      · rw [updateAt_other _ db j k hk] at hku
        exact huniq k u hk hku

theorem c2_atomic_claim_race_witness :
    ∃ db', claimOne 5 [⟨9, "water", 3, false, none⟩] =
        some (0, { (⟨9, "water", 3, false, none⟩ : Reminder) with processing := some true }, db') ∧
      claimOne 5 db' = none :=
  c2_atomic_claim_race.2 5 [⟨9, "water", 3, false, none⟩] 0 ⟨9, "water", 3, false, none⟩
    rfl (by decide)
    (fun j s hj hg => by
      cases j with
      | zero => exact absurd rfl hj
      | succ k => simp at hg)

/-- C10: within a single invocation of `send_due_reminders` the due-time
cutoff `now` is captured once at the start of the pass and every claim
compares against that same fixed timestamp, so a reminder whose
`reminder_date` is strictly after the pass-start instant is never claimed
during that pass — it is not among the claimed positions — and its document
is left untouched by the pass. -/
theorem c10_fixed_cutoff :
    ∀ (now : Int) (outcome : Nat → SendOutcome) (fuel : Nat)
      (db : List Reminder) (i : Nat) (r : Reminder),
      db[i]? = some r → now < r.reminder_date →
      i ∉ (runPass now outcome fuel db).2 ∧
        (runPass now outcome fuel db).1[i]? = some r := by
  intro now outcome fuel
  induction fuel with
  | zero => intro db i r hg _; simpa [runPass] using hg
  | succ n ih =>
    intro db i r hg hfut
    cases hclaim : claimOne now db with
    | none => rw [runPass, hclaim]; simpa using hg
    | some v =>
      obtain ⟨j, c, db'⟩ := v
      obtain ⟨s, hgs, heligs, rfl, rfl⟩ := claimOne_sound now db j c db' hclaim
      have hji : j ≠ i := by
        rintro rfl
        rw [hg] at hgs
        injection hgs with hgs
        subst hgs
        exact absurd ((eligible_spec now r).mp heligs).1 (by omega)
      have hg'' :
          (updateAt j (processClaimed (outcome n))
            (updateAt j (fun x => { x with processing := some true }) db))[i]? = some r := by
        rw [updateAt_other _ _ j i (fun h => hji h.symm),
            updateAt_other _ _ j i (fun h => hji h.symm)]
        exact hg
      obtain ⟨hmem, hkeep⟩ := ih _ i r hg'' hfut
      rw [runPass, hclaim]
      refine ⟨?_, hkeep⟩
      simp only [List.mem_cons]
      rintro (rfl | hmem')
      · exact hji rfl
      · exact hmem hmem'

theorem c10_fixed_cutoff_witness :
    0 ∉ (runPass 5 (fun _ => .success) 3 [⟨1, "soon", 10, false, none⟩]).2 ∧
      (runPass 5 (fun _ => .success) 3 [⟨1, "soon", 10, false, none⟩]).1[0]? =
        some ⟨1, "soon", 10, false, none⟩ :=
  c10_fixed_cutoff 5 (fun _ => .success) 3 [⟨1, "soon", 10, false, none⟩] 0
    ⟨1, "soon", 10, false, none⟩ rfl (by decide)

/-- `isPre` holds of a literal prefix. -/
theorem isPre_append : ∀ (p t : List Char), isPre p (p ++ t) = true := by
  intro p
  induction p with
  | nil => intro t; rfl
  | cons a as ih => intro t; simp [isPre, ih]

/-- `containsPat` holds of a literal occurrence. -/
theorem containsPat_of_append :
    ∀ (p a b : List Char), containsPat p (a ++ (p ++ b)) = true := by
  intro p a
  induction a with
  | nil =>
    intro b
    cases p with
    | nil => cases b <;> simp [containsPat, isPre]
    | cons x xs =>
      have hp := isPre_append (x :: xs) b
      simp only [List.cons_append] at hp
      simp [containsPat, hp]
  | cons c t ih =>
    intro b
    simp [containsPat, ih b]

/-- A successful `isPre` exposes the suffix. -/
theorem isPre_exists :
    ∀ (p l : List Char), isPre p l = true → ∃ t, l = p ++ t := by
  intro p
  induction p with
  | nil => intro l _; exact ⟨l, rfl⟩
  | cons a as ih =>
    intro l h
    cases l with
    | nil => simp [isPre] at h
    | cons b bs =>
      simp only [isPre, Bool.and_eq_true, decide_eq_true_eq] at h
      obtain ⟨rfl, h2⟩ := h
      obtain ⟨t, rfl⟩ := ih bs h2
      exact ⟨t, rfl⟩

/-- A successful `containsPat` exposes the occurrence. -/
theorem containsPat_exists :
    ∀ (p l : List Char), containsPat p l = true → ∃ a b, l = a ++ (p ++ b) := by
  intro p l
  induction l with
  | nil =>
    intro h
    simp only [containsPat, List.isEmpty_iff] at h
    exact ⟨[], [], by simp [h]⟩
  | cons c t ih =>
    intro h
    rcases Bool.or_eq_true_iff.mp h with h1 | h2
    · obtain ⟨s, hs⟩ := isPre_exists p (c :: t) h1
      exact ⟨[], s, by simp [hs]⟩
    · obtain ⟨a, b, rfl⟩ := ih h2
      exact ⟨c :: a, b, rfl⟩

/-- An occurrence of `p ++ q` yields an occurrence of `p`. -/
theorem containsPat_mono_left (p q l : List Char)
    (h : containsPat (p ++ q) l = true) : containsPat p l = true := by
  obtain ⟨a, b, rfl⟩ := containsPat_exists (p ++ q) l h
  rw [List.append_assoc p q b]
  exact containsPat_of_append p a (q ++ b)

/-- `containsPat` survives mapping a function over both sides. -/
theorem containsPat_map (f : Char → Char) (p l : List Char)
    (h : containsPat p l = true) : containsPat (p.map f) (l.map f) = true := by
  obtain ⟨a, b, rfl⟩ := containsPat_exists p l h
  rw [List.map_append, List.map_append]
  exact containsPat_of_append (p.map f) (a.map f) (b.map f)

/-- A list all of whose elements pass the filter is unchanged by it. -/
theorem filter_of_all (keep : Char → Bool) :
    ∀ (p : List Char), p.all keep = true → p.filter keep = p := by
  intro p
  induction p with
  | nil => intro _; rfl
  | cons a as ih =>
    intro h
    simp only [List.all_cons, Bool.and_eq_true] at h
    simp [List.filter_cons, h.1, ih h.2]

/-- `containsPat` survives filtering when the pattern passes the filter. -/
theorem containsPat_filter (keep : Char → Bool) (p l : List Char)
    (hall : p.all keep = true) (h : containsPat p l = true) :
    containsPat p (l.filter keep) = true := by
  obtain ⟨a, b, rfl⟩ := containsPat_exists p l h
  rw [List.filter_append, List.filter_append, filter_of_all keep p hall]
  exact containsPat_of_append p (a.filter keep) (b.filter keep)

/-- `containsPat [] l` always holds. -/
theorem containsPat_nil : ∀ l : List Char, containsPat [] l = true := by
  intro l
  cases l <;> simp [containsPat, isPre]

/-- A whitespace-free pattern survives dropping leading whitespace. -/
theorem containsPat_dropWhile (p : List Char)
    (hall : p.all (fun c => !pyIsSpace c) = true) :
    ∀ l : List Char, containsPat p l = true →
      containsPat p (l.dropWhile pyIsSpace) = true := by
  intro l
  induction l with
  | nil => intro h; simpa using h
  | cons c t ih =>
    intro h
    by_cases hc : pyIsSpace c = true
    · rw [List.dropWhile_cons, hc]
      simp only []
      rcases Bool.or_eq_true_iff.mp h with h1 | h2
      · cases p with
        | nil => exact containsPat_nil _
        | cons x xs =>
          simp only [isPre, Bool.and_eq_true, decide_eq_true_eq] at h1
          obtain ⟨rfl, _⟩ := h1
          simp [List.all_cons, hc] at hall
      · exact ih h2
    · rw [List.dropWhile_cons, Bool.eq_false_iff.mpr hc]
      simpa using h

/-- `containsPat` survives reversal of both sides. -/
theorem containsPat_reverse (p l : List Char)
    (h : containsPat p l = true) : containsPat p.reverse l.reverse = true := by
  obtain ⟨a, b, rfl⟩ := containsPat_exists p l h
  rw [List.reverse_append, List.reverse_append, List.append_assoc]
  exact containsPat_of_append p.reverse b.reverse a.reverse

/-- `List.all` survives reversal. -/
theorem all_of_reverse (f : Char → Bool) (q : List Char)
    (h : q.all f = true) : q.reverse.all f = true := by
  simp only [List.all_eq_true] at h ⊢
  intro x hx
  exact h x (List.mem_reverse.mp hx)

/-- A whitespace-free pattern survives Python `str.strip()`. -/
theorem containsPat_pyStrip (p l : List Char)
    (hall : p.all (fun c => !pyIsSpace c) = true)
    (h : containsPat p l = true) : containsPat p (pyStrip l) = true := by
  have h1 := containsPat_dropWhile p hall l h
  have h2 := containsPat_reverse p _ h1
  have h3 := containsPat_dropWhile p.reverse (all_of_reverse _ p hall) _ h2
  have h4 := containsPat_reverse p.reverse _ h3
  rw [List.reverse_reverse] at h4
  exact h4

/-- A whitespace-free, control-free pattern survives `sanitize_text`. -/
theorem containsPat_sanitize (p l : List Char)
    (hws : p.all (fun c => !pyIsSpace c) = true)
    (hctrl : p.all (fun c => !isStrippedControl c) = true)
    (h : containsPat p l = true) : containsPat p (sanitize_text l) = true :=
  containsPat_filter _ p (pyStrip l) hctrl (containsPat_pyStrip p l hws h)

/-- Any input whose sanitized form triggers the suspicious-pattern check is
rejected by `validate_reminder_text` (whatever earlier length check fires). -/
theorem validateRT_error_of_suspicious (s : List Char)
    (h : hasSuspicious (sanitize_text s) = true) :
    (validate_reminder_text s).isOk = false := by
  simp only [validate_reminder_text]
  split_ifs with h1 h2 h3 <;> rfl

/-- C8: `validate_reminder_text` rejects inputs of sanitized length 0 and
1001, accepts inputs of sanitized length 1 and 1000 that trigger no
suspicious pattern (returning the sanitized text), rejects any input
containing `<script>alert(1)</script>`, and rejects any input whose
sanitized form matches a case-insensitive suspicious pattern (`<script`,
`javascript:`, `data:`, `vbscript:`, or `on\w+\s*=`). -/
theorem c8_validate_reminder_text :
    (∀ s : List Char, (sanitize_text s).length = 0 →
      (validate_reminder_text s).isOk = false) ∧
    (∀ s : List Char, (sanitize_text s).length = 1001 →
      (validate_reminder_text s).isOk = false) ∧
    (∀ s : List Char, (sanitize_text s).length = 1 →
      hasSuspicious (sanitize_text s) = false →
      validate_reminder_text s = .ok (sanitize_text s)) ∧
    (∀ s : List Char, (sanitize_text s).length = 1000 →
      hasSuspicious (sanitize_text s) = false →
      validate_reminder_text s = .ok (sanitize_text s)) ∧
    (∀ s : List Char, containsPat "<script>alert(1)</script>".toList s = true →
      (validate_reminder_text s).isOk = false) ∧
    (∀ s : List Char, hasSuspicious (sanitize_text s) = true →
      (validate_reminder_text s).isOk = false) := by
  refine ⟨?_, ?_, ?_, ?_, ?_, validateRT_error_of_suspicious⟩
  · intro s h
    simp only [validate_reminder_text, MIN_REMINDER_LENGTH, MAX_REMINDER_LENGTH]
    split_ifs with h1 h2 h3 h4 <;> try rfl
    exfalso
    omega
  · intro s h
    simp only [validate_reminder_text, MIN_REMINDER_LENGTH, MAX_REMINDER_LENGTH]
    split_ifs with h1 h2 h3 h4 <;> try rfl
    exfalso
    omega
  · intro s h hsusp
    have hne : s.isEmpty = false := by
      cases s with
      | nil => exact absurd h (by decide)
      | cons a t => rfl
    simp [validate_reminder_text, hne, h, hsusp, MIN_REMINDER_LENGTH, MAX_REMINDER_LENGTH]
  · intro s h hsusp
    have hne : s.isEmpty = false := by
      cases s with
      | nil => exact absurd h (by decide)
      | cons a t => rfl
    simp [validate_reminder_text, hne, h, hsusp, MIN_REMINDER_LENGTH, MAX_REMINDER_LENGTH]
  · intro s h
    have hsub : containsPat "<script".toList s = true := by
      have hsplit : "<script>alert(1)</script>".toList =
          "<script".toList ++ ">alert(1)</script>".toList := by decide
      rw [hsplit] at h
      exact containsPat_mono_left _ _ _ h
    have hsan : containsPat "<script".toList (sanitize_text s) = true :=
      containsPat_sanitize _ _ (by decide) (by decide) hsub
    have hlowmap := containsPat_map Char.toLower _ _ hsan
    have heq : ("<script".toList).map Char.toLower = "<script".toList := by decide
    rw [heq] at hlowmap
    apply validateRT_error_of_suspicious
    simp only [hasSuspicious, Bool.or_eq_true]
    exact Or.inl (Or.inl (Or.inl (Or.inl hlowmap)))

set_option maxRecDepth 20000

theorem c8_validate_reminder_text_witness :
    (validate_reminder_text [' ']).isOk = false ∧
    (validate_reminder_text (List.replicate 1001 'a')).isOk = false ∧
    validate_reminder_text ['a'] = .ok (sanitize_text ['a']) ∧
    validate_reminder_text (List.replicate 1000 'a') =
      .ok (sanitize_text (List.replicate 1000 'a')) ∧
    (validate_reminder_text "hey <script>alert(1)</script>".toList).isOk = false ∧
    (validate_reminder_text "onclick=x".toList).isOk = false :=
  ⟨c8_validate_reminder_text.1 [' '] (by decide),
   c8_validate_reminder_text.2.1 (List.replicate 1001 'a') (by decide),
   c8_validate_reminder_text.2.2.1 ['a'] (by decide) (by decide),
   c8_validate_reminder_text.2.2.2.1 (List.replicate 1000 'a') (by decide) (by decide),
   c8_validate_reminder_text.2.2.2.2.1 "hey <script>alert(1)</script>".toList (by decide),
   c8_validate_reminder_text.2.2.2.2.2 "onclick=x".toList (by decide)⟩
